import Mathlib

/-!
# fragmenta command line tool: project detection, configuration, server lifecycle

A shallow embedding of `fragmenta.go`.  The operating system is a record of
oracles (`World`): what `os.Stat`, `ioutil.ReadFile`, `filepath.Abs(".")`,
the build invocation and `cmd.Start` answer.  Side effects are recorded as a
list of `Event`s in program order.
-/

set_option autoImplicit false

namespace Fragmenta

/-! ## Go values -/

/-- A Go `error` value, identified by its message. -/
structure GoError where
  msg : String
  deriving DecidableEq, Repr

/-- The part of `os.FileInfo` that matters here. -/
structure FileInfo where
  isDir : Bool
  deriving DecidableEq, Repr

/-! ## `path.Join` of the Go standard library -/

/-- Whether the read position is at the end of the path or at a separator:
`r == n || path[r] == '/'`. -/
def atSeparator (path : List Char) : Bool :=
  match path with
  | [] => true
  | c :: _ => c == '/'

/-- The backtracking loop of `path.Clean` after `out.w--`:
`for out.w > dotdot && out.index(out.w) != '/' { out.w-- }`. -/
def backtrackTo (buf : List Char) (dotdot : Nat) : Nat → Nat
  | 0 => 0
  | w + 1 =>
    if w + 1 > dotdot ∧ buf.getD (w + 1) '/' ≠ '/' then backtrackTo buf dotdot w else w + 1

/-- The main loop of `path.Clean`; `path` is the unread input `path[r:]`, `out`
the output buffer and `dotdot` the index where `..` must stop.  Every
iteration reads at least one character, the fuel is the input length. -/
def cleanLoop (rooted : Bool) : Nat → List Char → List Char → Nat → List Char
  | 0, _, out, _ => out
  | fuel + 1, path, out, dotdot =>
    match path with
    | [] => out
    | c :: rest =>
      if c = '/' then
        cleanLoop rooted fuel rest out dotdot
      else if c = '.' ∧ atSeparator rest = true then
        cleanLoop rooted fuel rest out dotdot
      else if c = '.' ∧ rest.head? = some '.' ∧ atSeparator (rest.drop 1) = true then
        if out.length > dotdot then
          cleanLoop rooted fuel (rest.drop 1)
            (out.take (backtrackTo out dotdot (out.length - 1))) dotdot
        else if rooted = false then
          let out2 := (if out.length > 0 then out ++ ['/'] else out) ++ ['.', '.']
          cleanLoop rooted fuel (rest.drop 1) out2 out2.length
        else
          cleanLoop rooted fuel (rest.drop 1) out dotdot
      else
        let out1 :=
          if (rooted = true ∧ out.length ≠ 1) ∨ (rooted = false ∧ out.length ≠ 0)
          then out ++ ['/'] else out
        cleanLoop rooted fuel (path.dropWhile (fun x => x != '/'))
          (out1 ++ path.takeWhile (fun x => x != '/')) dotdot

/-- Go's `path.Clean`. -/
def pathClean (path : String) : String :=
  match path.data with
  | [] => "."
  | c :: rest =>
    let rooted : Bool := c == '/'
    let out :=
      if rooted then cleanLoop true (rest.length + 1) rest ['/'] 1
      else cleanLoop false (rest.length + 2) (c :: rest) [] 0
    if out.length = 0 then "." else String.mk out

/-- Go's `path.Join` for two elements: leading empty elements are ignored,
the rest is joined by `/` and cleaned; the result is empty when both elements
are empty. -/
def pathJoin (a b : String) : String :=
  if a = "" then (if b = "" then "" else pathClean b)
  else pathClean (a ++ "/" ++ b)

/-! ## The operating system, as seen by the tool -/

/-- The JSON value denoted by a document. -/
inductive Json where
  | null
  | bool (b : Bool)
  | number (literal : String)
  | string (s : String)
  | array (elems : List Json)
  | object (members : List (String × Json))

/-- The answers of the environment to the calls the tool makes. -/
structure World where
  /-- `os.Stat(name)`. -/
  stat : String → Except GoError FileInfo
  /-- `ioutil.ReadFile(name)`. -/
  readFile : String → Except GoError String
  /-- The syntax check of `encoding/json`: the value a byte string denotes, or
  the syntax error when it is not a JSON document. -/
  jsonValue : String → Except GoError Json
  /-- `filepath.Abs(".")`. -/
  abs : Except GoError String
  /-- `buildServer(output, args)`, defined in another file of the package:
  `none` is a nil error. -/
  buildServer : String → List String → Option GoError
  /-- `cmd.Start()` for the command at the given path: `none` is a nil error. -/
  start : String → Option GoError

/-! ## Paths -/

def fragmentaVersion : String := "1.1"

def fragmentaDivider : String := "\n------\n"

def serverName : String := "fragmenta-server"

def localServerPath (projectPath : String) : String :=
  projectPath ++ "/bin/" ++ serverName ++ "-local"

def serverPath (projectPath : String) : String :=
  projectPath ++ "/bin/" ++ serverName

def serverCompilePath (w : World) (projectPath : String) : String :=
  match w.stat (pathJoin projectPath "server.go") with
  | .error _ => projectPath ++ "/src/app"
  | .ok _ => projectPath

def configPath (projectPath : String) : String :=
  projectPath ++ "/secrets/fragmenta.json"

def isValidProject (w : World) (projectPath : String) : Bool :=
  match w.stat (serverCompilePath w projectPath) with
  | .error _ => false
  | .ok _ =>
    match w.stat (configPath projectPath) with
    | .error _ => false
    | .ok _ => true

/-! ## Go maps and the configuration slots -/

/-- A Go `map[string]V`: `none` is the nil map, `some kvs` an allocated map
held as an association list with one entry per key. -/
abbrev GoMap (V : Type) := Option (List (String × V))

/-- The expression `m[k]`: the value stored under `k`, the zero value of `V`
when the key is absent or the map is nil. -/
def GoMap.index {V : Type} (zero : V) (m : GoMap V) (k : String) : V :=
  match m with
  | none => zero
  | some kvs => (kvs.lookup k).getD zero

/-- The assignment `m[k] = v` on an allocated map. -/
def mapSet {V : Type} (kvs : List (String × V)) (k : String) (v : V) : List (String × V) :=
  (k, v) :: kvs.filter (fun e => e.1 != k)

/-- The package-level variables. -/
structure Globals where
  ConfigDevelopment : GoMap String
  ConfigProduction : GoMap String
  ConfigTest : GoMap String
  deriving DecidableEq, Repr

/-- The state at program start: the three maps are nil. -/
def Globals.initial : Globals := ⟨none, none, none⟩

/-! ## `json.Unmarshal` into `map[string]map[string]string` -/

/-- The `UnmarshalTypeError` for a JSON value of the given kind. -/
def typeError (value goType : String) : GoError :=
  ⟨"json: cannot unmarshal " ++ value ++ " into Go value of type " ++ goType⟩

/-- Keep the earliest saved error (`d.saveError`). -/
def saveError (saved new : Option GoError) : Option GoError :=
  match saved with
  | some e => some e
  | none => new

/-- Decoding one JSON value into a Go `string` that holds its zero value: a
string is stored, `null` has no effect and is no error, anything else is
skipped with a type error. -/
def decodeString (v : Json) : String × Option GoError :=
  match v with
  | .string s => (s, none)
  | .null => ("", none)
  | .bool _ => ("", some (typeError "bool" "string"))
  | .number _ => ("", some (typeError "number" "string"))
  | .array _ => ("", some (typeError "array" "string"))
  | .object _ => ("", some (typeError "object" "string"))

/-- Decoding the members of a JSON object into an allocated `map[string]string`. -/
def decodeSettings (members : List (String × Json)) :
    List (String × String) × Option GoError :=
  members.foldl
    (fun acc kv => (mapSet acc.1 kv.1 (decodeString kv.2).1, saveError acc.2 (decodeString kv.2).2))
    ([], none)

/-- Decoding one JSON value into a nil `map[string]string`: an object
allocates the map and fills it, `null` leaves it nil, anything else is
skipped with a type error. -/
def decodeSection (v : Json) : GoMap String × Option GoError :=
  match v with
  | .object members => (some (decodeSettings members).1, (decodeSettings members).2)
  | .null => (none, none)
  | .bool _ => (none, some (typeError "bool" "map[string]string"))
  | .number _ => (none, some (typeError "number" "map[string]string"))
  | .string _ => (none, some (typeError "string" "map[string]string"))
  | .array _ => (none, some (typeError "array" "map[string]string"))

/-- Decoding the members of the top-level object. -/
def decodeSections (members : List (String × Json)) :
    List (String × GoMap String) × Option GoError :=
  members.foldl
    (fun acc kv => (mapSet acc.1 kv.1 (decodeSection kv.2).1, saveError acc.2 (decodeSection kv.2).2))
    ([], none)

/-- Decoding a JSON value into `var data map[string]map[string]string`. -/
def decodeData (v : Json) : GoMap (GoMap String) × Option GoError :=
  match v with
  | .object members => (some (decodeSections members).1, (decodeSections members).2)
  | .null => (none, none)
  | .bool _ => (none, some (typeError "bool" "map[string]map[string]string"))
  | .number _ => (none, some (typeError "number" "map[string]map[string]string"))
  | .string _ => (none, some (typeError "string" "map[string]map[string]string"))
  | .array _ => (none, some (typeError "array" "map[string]map[string]string"))

/-- The call `json.Unmarshal(file, &data)` with `data` nil: a syntax error is
returned before anything is stored; otherwise the value is decoded and the
earliest type error, if any, is returned. -/
def unmarshal (w : World) (file : String) : GoMap (GoMap String) × Option GoError :=
  match w.jsonValue file with
  | .error e => (none, some e)
  | .ok v => decodeData v

/-! ## Observable actions -/

/-- The side effects of the tool, in program order. -/
inductive Event where
  /-- `log.Print(s)`. -/
  | print (s : String)
  /-- `log.Printf(format, args...)`. -/
  | printf (format : String) (args : List String)
  /-- `log.Println(args...)`. -/
  | println (args : List String)
  /-- `runCommand(command, args...)`: an external command run to completion. -/
  | runCommand (command : String) (args : List String)
  /-- `buildServer(output, args)`. -/
  | buildServer (output : String) (args : List String)
  /-- `exec.Command(path)`. -/
  | command (path : String)
  /-- `cmd.StdoutPipe()`. -/
  | stdoutPipe
  /-- `cmd.StderrPipe()`. -/
  | stderrPipe
  /-- `cmd.Start()`. -/
  | start (path : String)
  /-- `go io.Copy(os.Stdout, stdout)`. -/
  | goCopyStdout
  /-- `go io.Copy(os.Stderr, stderr)`. -/
  | goCopyStderr
  /-- `cmd.Wait()`. -/
  | wait
  /-- A call of a function defined in another file of the package, by name. -/
  | call (fn : String) (args : List String)
  deriving DecidableEq, Repr

/-! ## The tool -/

def showVersion : List Event :=
  [.print (fragmentaDivider ++ ("Fragmenta version: " ++ fragmentaVersion) ++ fragmentaDivider)]

def helpString : String :=
  fragmentaDivider
    ++ ("Fragmenta version: " ++ fragmentaVersion)
    ++ "\n  fragmenta version -> display version"
    ++ "\n  fragmenta help -> display help"
    ++ "\n  fragmenta new [app|cms|blog|URL] path/to/app -> creates a new app from the repository at URL at the path supplied"
    ++ "\n  fragmenta -> builds and runs a fragmenta app"
    ++ "\n  fragmenta server -> builds and runs a fragmenta app"
    ++ "\n  fragmenta test  -> run tests"
    ++ "\n  fragmenta backup [development|production|test] -> backup the database to db/backup"
    ++ "\n  fragmenta restore [development|production|test] -> backup the database from latest file in db/backup"
    ++ "\n  fragmenta deploy [development|production|test] -> build and deploy using bin/deploy"
    ++ "\n  fragmenta migrate -> runs new sql migrations in db/migrate"
    ++ "\n  fragmenta generate resource [name] [fieldname]:[fieldtype]* -> creates resource CRUD actions and views"
    ++ "\n  fragmenta generate migration [name] -> creates a new named sql migration in db/migrate"
    ++ fragmentaDivider

/-- The body of `showHelp` does not read its argument. -/
def showHelp (_args : List String) : List Event :=
  [.print helpString]

def killServer : List Event :=
  [.runCommand "killall" ["-9", serverName]]

def runServer (w : World) (projectPath : String) : List Event :=
  showVersion ++ killServer ++ [.println ["Building server..."]] ++
    [.buildServer (localServerPath projectPath) []] ++
    match w.buildServer (localServerPath projectPath) [] with
    | some err => [.printf "Error building server: %s" [err.msg]]
    | none =>
      [.println ["Launching server..."], .command (localServerPath projectPath),
        .stdoutPipe, .stderrPipe, .start (localServerPath projectPath)] ++
      (match w.start (localServerPath projectPath) with
        | some err => [.println [err.msg]]
        | none => []) ++
      [.goCopyStdout, .goCopyStderr, .wait]

def requireValidProject (w : World) (projectPath : String) : Bool × List Event :=
  if isValidProject w projectPath = true then (true, [])
  else (false, [.printf "\nNo fragmenta project found at this path\n" []])

/-- The result of `readConfig`: the returned error, the package variables
afterwards and the log output. -/
structure ReadResult where
  err : Option GoError
  globals : Globals
  events : List Event

def readConfig (w : World) (projectPath : String) (g : Globals) : ReadResult :=
  match w.readFile (configPath projectPath) with
  | .error err =>
    ⟨some err, g, [.printf "Error opening config %s %v" [configPath projectPath, err.msg]]⟩
  | .ok file =>
    match unmarshal w file with
    | (_, some err) =>
      ⟨some err, g, [.printf "Error parsing config %s %v" [configPath projectPath, err.msg]]⟩
    | (data, none) =>
      ⟨none,
        { ConfigDevelopment := data.index none "development"
          ConfigProduction := data.index none "production"
          ConfigTest := data.index none "test" },
        []⟩

/-- What `main` leaves behind: the package variables and the actions taken. -/
structure Run where
  globals : Globals
  events : List Event

/-- A command guarded by `requireValidProject`. -/
def guarded (w : World) (projectPath : String) (action : List Event) : List Event :=
  (requireValidProject w projectPath).2 ++
    if (requireValidProject w projectPath).1 = true then action else []

/-- The `switch command` of `main`. -/
def dispatch (w : World) (projectPath command : String) (args : List String) : List Event :=
  if command = "new" ∨ command = "n" then [.call "runNew" args]
  else if command = "version" ∨ command = "v" then showVersion
  else if command = "help" ∨ command = "h" ∨ command = "wat" ∨ command = "?" then showHelp args
  else if command = "server" ∨ command = "s" then guarded w projectPath (runServer w projectPath)
  else if command = "test" ∨ command = "t" then guarded w projectPath [.call "runTests" args]
  else if command = "build" ∨ command = "B" then guarded w projectPath [.call "runBuild" args]
  else if command = "generate" ∨ command = "g" then
    guarded w projectPath [.call "runGenerate" args]
  else if command = "migrate" ∨ command = "m" then guarded w projectPath [.call "runMigrate" args]
  else if command = "backup" ∨ command = "b" then guarded w projectPath [.call "runBackup" args]
  else if command = "restore" ∨ command = "r" then guarded w projectPath [.call "runRestore" args]
  else if command = "deploy" ∨ command = "d" then guarded w projectPath [.call "runDeploy" args]
  else
    (requireValidProject w projectPath).2 ++
      if (requireValidProject w projectPath).1 = true then runServer w projectPath
      else showHelp args

/-- The function `main` on the argument vector `os.Args`, started with the
package variables `g`. -/
def main (w : World) (args : List String) (g : Globals) : Run :=
  let command := if args.length > 1 then args.getD 1 "" else ""
  match w.abs with
  | .error err => ⟨g, [.printf "Error getting path" [err.msg]]⟩
  | .ok projectPath =>
    let loaded : ReadResult :=
      if isValidProject w projectPath = true then readConfig w projectPath g else ⟨none, g, []⟩
    ⟨loaded.globals, loaded.events ++ dispatch w projectPath command args⟩

/-! ## Concrete worlds -/

/-- Whether a call returned a nil error. -/
def succeeds {α : Type} (r : Except GoError α) : Bool :=
  match r with
  | .ok _ => true
  | .error _ => false

/-- A machine whose working directory is `/proj`, holding exactly the given
directories and regular files; no file is readable as JSON, the build and the
start of the server succeed. -/
def sampleWorld (dirs files : List String) : World where
  stat := fun name =>
    if name ∈ dirs then .ok ⟨true⟩
    else if name ∈ files then .ok ⟨false⟩
    else .error ⟨"stat " ++ name ++ ": no such file or directory"⟩
  readFile := fun name => .error ⟨"open " ++ name ++ ": no such file or directory"⟩
  jsonValue := fun _ => .error ⟨"unexpected end of JSON input"⟩
  abs := .ok "/proj"
  buildServer := fun _ _ => none
  start := fun _ => none

/-- A current-layout project: `server.go` at the root and a configuration file. -/
def currentProject : World :=
  sampleWorld ["/", "/proj", "/proj/secrets"] ["/proj/server.go", "/proj/secrets/fragmenta.json"]

/-- A directory with the nested source directory and a configuration file,
but no `server.go` anywhere. -/
def sourceDirWithoutEntryPoint : World :=
  sampleWorld ["/", "/proj", "/proj/src", "/proj/src/app", "/proj/secrets"]
    ["/proj/secrets/fragmenta.json"]

/-- A project whose root `server.go` exists but cannot be examined. -/
def unreadableRoot : World :=
  { sampleWorld ["/", "/proj"] [] with
    stat := fun name =>
      if name = "/proj/server.go" then .error ⟨"stat /proj/server.go: permission denied"⟩
      else if name ∈ ["/", "/proj"] then .ok ⟨true⟩
      else .error ⟨"stat " ++ name ++ ": no such file or directory"⟩ }

/-- An empty directory: nothing of a project is there. -/
def emptyDirectory : World := sampleWorld ["/", "/proj"] []

/-! ## The validity predicate in the words of the specification -/

/-- The entry point the layout of `projectPath` expects exists: `server.go`
directly under the path for the current layout, `server.go` under
`src/app` for the legacy layout. -/
def entryPointExists (w : World) (projectPath : String) : Bool :=
  if succeeds (w.stat (pathJoin projectPath "server.go")) then true
  else succeeds (w.stat (pathJoin (projectPath ++ "/src/app") "server.go"))

/-- Validity as the specification words it: the expected entry point exists
and the configuration file exists. -/
def validPerSpec (w : World) (projectPath : String) : Bool :=
  entryPointExists w projectPath && succeeds (w.stat (configPath projectPath))

/-! ## Configuration documents -/

/-- The value a list of key/value pairs gives to a key when read as a JSON
object: the value of the last pair with that key. -/
def lastBinding (kvs : List (String × String)) (k : String) : Option String :=
  kvs.foldl (fun r kv => if kv.1 = k then some kv.2 else r) none

/-- The JSON object whose members are the given string settings. -/
def settingsObject (kvs : List (String × String)) : Json :=
  .object (kvs.map (fun kv => (kv.1, Json.string kv.2)))

/-- A JSON value that is neither a string nor `null`. -/
def isNumberBoolArrayOrObject (v : Json) : Bool :=
  match v with
  | .bool _ => true
  | .number _ => true
  | .array _ => true
  | .object _ => true
  | .string _ => false
  | .null => false

/-- A JSON value that is not a string. -/
def isNotString (v : Json) : Bool :=
  match v with
  | .string _ => false
  | _ => true

/-- The document is an object of sections one of which is an object with a
setting whose value satisfies `bad`. -/
def hasSettingWith (bad : Json → Bool) (doc : Json) : Bool :=
  match doc with
  | .object sections =>
    sections.any (fun sec =>
      match sec.2 with
      | .object settings => settings.any (fun kv => bad kv.2)
      | _ => false)
  | _ => false

/-- All three configuration maps read as empty: every key yields `""`. -/
def AllEmpty (g : Globals) : Prop :=
  ∀ k : String,
    g.ConfigDevelopment.index "" k = "" ∧ g.ConfigProduction.index "" k = "" ∧
      g.ConfigTest.index "" k = ""

/-- The current-layout project whose configuration file holds `content`,
which denotes `value`. -/
def configWorld (content : String) (value : Except GoError Json) : World :=
  { currentProject with
    readFile := fun name =>
      if name = "/proj/secrets/fragmenta.json" then .ok content
      else .error ⟨"open " ++ name ++ ": no such file or directory"⟩
    jsonValue := fun s =>
      if s = content then value else .error ⟨"invalid character"⟩ }

/-- A configuration file with only a `production` section. -/
def productionOnly : World :=
  configWorld "\x7b\"production\":\x7b\"port\":\"3000\",\"db\":\"app\"\x7d\x7d"
    (.ok (.object [("production", settingsObject [("port", "3000"), ("db", "app")])]))

/-- A configuration file with a `null` setting next to a string setting. -/
def nullSettingDocument : Json :=
  .object [("production", .object [("a", .null), ("b", .string "x")])]

def nullSetting : World :=
  configWorld "\x7b\"production\":\x7b\"a\":null,\"b\":\"x\"\x7d\x7d" (.ok nullSettingDocument)

/-- A configuration file with a number as a setting value. -/
def numberSetting : World :=
  configWorld "\x7b\"production\":\x7b\"port\":3000\x7d\x7d"
    (.ok (.object [("production", .object [("port", .number "3000")])]))

/-- A configuration file that is not JSON. -/
def notJson : World :=
  configWorld "port = 3000" (.error ⟨"invalid character p looking for beginning of value"⟩)

/-- A project directory without a configuration file. -/
def missingConfig : World := sampleWorld ["/", "/proj"] ["/proj/server.go"]

/-- A load that failed and left nothing behind: an error is returned, the
package variables are still the initial ones and every key reads as `""`. -/
def LoadFailedEmpty (r : ReadResult) : Prop :=
  r.err.isSome = true ∧ r.globals = Globals.initial ∧ AllEmpty r.globals

/-! ## Commands and traces -/

/-- The command tokens that require a valid project. -/
def guardedCommands : List String :=
  ["server", "s", "test", "t", "build", "B", "generate", "g", "migrate", "m",
    "backup", "b", "restore", "r", "deploy", "d"]

/-- The command tokens named by a `case` of the switch in `main`. -/
def recognisedCommands : List String :=
  ["new", "n", "version", "v", "help", "h", "wat", "?"] ++ guardedCommands

/-- The diagnostic of `requireValidProject`. -/
def noProjectDiagnostic : Event :=
  .printf "\nNo fragmenta project found at this path\n" []

/-- The termination signal sent by `killServer`. -/
def killEvent : Event := .runCommand "killall" ["-9", serverName]

/-- The build invocation of `runServer`. -/
def buildEvent (projectPath : String) : Event :=
  .buildServer (localServerPath projectPath) []

/-- The steps of launching the server: creating the command, attaching the
pipes, starting the child, forwarding its streams and waiting for it. -/
def Event.isLaunchStep (e : Event) : Bool :=
  match e with
  | .command _ => true
  | .stdoutPipe => true
  | .stderrPipe => true
  | .start _ => true
  | .goCopyStdout => true
  | .goCopyStderr => true
  | .wait => true
  | _ => false

/-- The steps that act on the outside: external commands, the build, the
launch steps and the calls into the other files of the package. -/
def Event.isAction (e : Event) : Bool :=
  match e with
  | .print _ => false
  | .printf _ _ => false
  | .println _ => false
  | _ => true

/-- A valid project whose build fails. -/
def buildFails : World :=
  { currentProject with buildServer := fun _ _ => some ⟨"exit status 2"⟩ }

/-- A valid project whose build succeeds and whose server cannot be started. -/
def startFails : World :=
  { currentProject with
    start := fun _ => some ⟨"fork/exec /proj/bin/fragmenta-server-local: permission denied"⟩ }

/-! # Properties -/

/-! ## Project detection -/

/-- C1: on a directory that has `src/app` and `secrets/fragmenta.json` but no
`server.go` at all, `isValidProject` answers true although no entry point
exists, so it is not equivalent to "entry point and configuration file exist". -/
theorem isValidProject_accepts_missing_entry_point :
    isValidProject sourceDirWithoutEntryPoint "/proj" = true ∧
    succeeds (sourceDirWithoutEntryPoint.stat "/proj/server.go") = false ∧
    succeeds (sourceDirWithoutEntryPoint.stat "/proj/src/app/server.go") = false ∧
    validPerSpec sourceDirWithoutEntryPoint "/proj" = false := by
  refine ⟨?_, ?_, ?_, ?_⟩ <;> decide

/-- C2: `serverCompilePath` returns the project path itself when `os.Stat` of
`server.go` directly under it succeeds, and the path followed by `/src/app`
when that call returns an error, whatever the error is. -/
theorem serverCompilePath_by_layout (w : World) (projectPath : String) :
    (∀ info, w.stat (pathJoin projectPath "server.go") = .ok info →
      serverCompilePath w projectPath = projectPath) ∧
    (∀ err, w.stat (pathJoin projectPath "server.go") = .error err →
      serverCompilePath w projectPath = projectPath ++ "/src/app") := by
  constructor
  · intro info h
    simp [serverCompilePath, h]
  · intro err h
    simp [serverCompilePath, h]

/-- The two layouts on concrete machines: a root `server.go`, and a root
`server.go` whose `os.Stat` is refused with a permission error. -/
theorem serverCompilePath_by_layout_witness :
    serverCompilePath currentProject "/proj" = "/proj" ∧
    serverCompilePath unreadableRoot "/proj" = "/proj/src/app" :=
  ⟨(serverCompilePath_by_layout currentProject "/proj").1 ⟨false⟩ rfl,
   (serverCompilePath_by_layout unreadableRoot "/proj").2
     ⟨"stat /proj/server.go: permission denied"⟩ rfl⟩

/-! ## Go maps -/

theorem lookup_filter_ne {V : Type} (acc : List (String × V)) (k x : String) (h : x ≠ k) :
    (acc.filter (fun e => e.1 != x)).lookup k = acc.lookup k := by
  induction acc with
  | nil => rfl
  | cons e tl ih =>
    obtain ⟨a, b⟩ := e
    by_cases hax : a = x
    · subst hax
      have hka : (k == a) = false := by simpa using fun h2 => h h2.symm
      simp [List.filter_cons, List.lookup_cons, hka, ih]
    · have : (a != x) = true := by simpa using hax
      simp [List.filter_cons, List.lookup_cons, this, ih]

theorem lookup_mapSet {V : Type} (acc : List (String × V)) (x k : String) (v : V) :
    (mapSet acc x v).lookup k = if x = k then some v else acc.lookup k := by
  by_cases h : x = k
  · subst h
    simp [mapSet, List.lookup_cons]
  · have hk : (k == x) = false := by simpa using fun h2 => h h2.symm
    simp [mapSet, List.lookup_cons, hk, h, lookup_filter_ne acc k x h]

theorem keys_mapSet_nodup {V : Type} (acc : List (String × V)) (x : String) (v : V)
    (h : (acc.map Prod.fst).Nodup) : ((mapSet acc x v).map Prod.fst).Nodup := by
  simp only [mapSet, List.map_cons, List.nodup_cons]
  constructor
  · simp [List.mem_map, List.mem_filter]
  · exact (List.Nodup.sublist (List.Sublist.map _ (List.filter_sublist _)) h)

theorem mem_iff_lookup {V : Type} (l : List (String × V)) (h : (l.map Prod.fst).Nodup)
    (k : String) (v : V) : (k, v) ∈ l ↔ l.lookup k = some v := by
  induction l with
  | nil => simp
  | cons e tl ih =>
    obtain ⟨a, b⟩ := e
    simp only [List.map_cons, List.nodup_cons] at h
    by_cases hka : k = a
    · subst hka
      have hnot : (k, v) ∉ tl := fun hm => h.1 (List.mem_map.mpr ⟨(k, v), hm, rfl⟩)
      simp [List.lookup_cons, hnot, eq_comm]
    · have hk : (k == a) = false := by simpa using hka
      simp [List.lookup_cons, hk, hka, ih h.2]

/-- The map built by successive assignments, starting from `acc`. -/
theorem lookup_foldl_mapSet (kvs : List (String × String)) (acc : List (String × String))
    (k : String) :
    (kvs.foldl (fun a kv => mapSet a kv.1 kv.2) acc).lookup k =
      kvs.foldl (fun r kv => if kv.1 = k then some kv.2 else r) (acc.lookup k) := by
  induction kvs generalizing acc with
  | nil => rfl
  | cons e tl ih =>
    simp only [List.foldl_cons]
    rw [ih, lookup_mapSet]

theorem keys_foldl_mapSet_nodup (kvs : List (String × String)) (acc : List (String × String))
    (h : (acc.map Prod.fst).Nodup) :
    ((kvs.foldl (fun a kv => mapSet a kv.1 kv.2) acc).map Prod.fst).Nodup := by
  induction kvs generalizing acc with
  | nil => exact h
  | cons e tl ih =>
    simp only [List.foldl_cons]
    exact ih _ (keys_mapSet_nodup acc e.1 e.2 h)

/-- With distinct keys, the last binding of a key is its only binding. -/
theorem foldl_binding_eq_some_iff (kvs : List (String × String))
    (h : (kvs.map Prod.fst).Nodup) (k v : String) (r : Option String) :
    kvs.foldl (fun r kv => if kv.1 = k then some kv.2 else r) r = some v ↔
      (k, v) ∈ kvs ∨ (k ∉ kvs.map Prod.fst ∧ r = some v) := by
  induction kvs generalizing r with
  | nil => simp
  | cons e tl ih =>
    obtain ⟨a, b⟩ := e
    simp only [List.map_cons, List.nodup_cons] at h
    simp only [List.foldl_cons]
    rw [ih h.2]
    by_cases hak : a = k
    · subst hak
      have hnot : (a, v) ∉ tl := fun hm => h.1 (List.mem_map.mpr ⟨(a, v), hm, rfl⟩)
      simp [hnot, h.1, eq_comm]
    · have hka : k ≠ a := fun h2 => hak h2.symm
      simp [hak, hka]

theorem lastBinding_eq_some_iff (kvs : List (String × String))
    (h : (kvs.map Prod.fst).Nodup) (k v : String) :
    lastBinding kvs k = some v ↔ (k, v) ∈ kvs := by
  unfold lastBinding
  rw [foldl_binding_eq_some_iff kvs h k v none]
  simp

/-! ## Decoding -/

theorem saveError_none (saved : Option GoError) : saveError saved none = saved := by
  cases saved <;> rfl

/-- Decoding string settings stores each of them and saves no error. -/
theorem foldl_decode_strings (kvs : List (String × String))
    (acc : List (String × String) × Option GoError) :
    (kvs.map (fun kv => (kv.1, Json.string kv.2))).foldl
      (fun acc kv =>
        (mapSet acc.1 kv.1 (decodeString kv.2).1, saveError acc.2 (decodeString kv.2).2)) acc =
      (kvs.foldl (fun a kv => mapSet a kv.1 kv.2) acc.1, acc.2) := by
  induction kvs generalizing acc with
  | nil => rfl
  | cons e tl ih =>
    simp only [List.map_cons, List.foldl_cons]
    rw [ih]
    simp [decodeString, saveError_none]

theorem decodeSettings_strings (kvs : List (String × String)) :
    decodeSettings (kvs.map (fun kv => (kv.1, Json.string kv.2))) =
      (kvs.foldl (fun a kv => mapSet a kv.1 kv.2) [], none) :=
  foldl_decode_strings kvs ([], none)

/-- A production-only document decodes without error into a map with the one
key `production`. -/
theorem decodeData_production_only (kvs : List (String × String)) :
    decodeData (.object [("production", settingsObject kvs)]) =
      (some [("production", some (kvs.foldl (fun a kv => mapSet a kv.1 kv.2) []))], none) := by
  simp [decodeData, decodeSections, decodeSection, settingsObject, decodeSettings_strings,
    mapSet, saveError]

/-! ## Loading the configuration -/

/-- C3: when the configuration file holds a JSON object whose only member is
`production`, an object of string settings, `readConfig` returns no error
from any starting state; afterwards `ConfigDevelopment` and `ConfigTest` are nil
maps, so every key reads as `""` in them, and `ConfigProduction` is an allocated map
with one entry per key whose entries are exactly the bindings of the section
(the last one for a repeated key, all of them when the keys are distinct). -/
theorem readConfig_production_only (w : World) (projectPath file : String) (g : Globals)
    (kvs : List (String × String))
    (hread : w.readFile (configPath projectPath) = .ok file)
    (hjson : w.jsonValue file = .ok (.object [("production", settingsObject kvs)])) :
    (readConfig w projectPath g).err = none ∧
    (readConfig w projectPath g).globals.ConfigDevelopment = none ∧
    (readConfig w projectPath g).globals.ConfigTest = none ∧
    (∀ k, (readConfig w projectPath g).globals.ConfigDevelopment.index "" k = "") ∧
    (∀ k, (readConfig w projectPath g).globals.ConfigTest.index "" k = "") ∧
    ∃ m, (readConfig w projectPath g).globals.ConfigProduction = some m ∧
      (m.map Prod.fst).Nodup ∧
      (∀ k v, (k, v) ∈ m ↔ lastBinding kvs k = some v) ∧
      (∀ k, (readConfig w projectPath g).globals.ConfigProduction.index "" k =
        (lastBinding kvs k).getD "") ∧
      ((kvs.map Prod.fst).Nodup → ∀ k v, (k, v) ∈ m ↔ (k, v) ∈ kvs) := by
  have hrun : readConfig w projectPath g =
      ⟨none, ⟨none, some (kvs.foldl (fun a kv => mapSet a kv.1 kv.2) []), none⟩, []⟩ := by
    simp [readConfig, hread, unmarshal, hjson, decodeData_production_only, GoMap.index,
      List.lookup_cons]
  have hnodup := keys_foldl_mapSet_nodup kvs [] (by simp)
  have hlookup : ∀ k, (kvs.foldl (fun a kv => mapSet a kv.1 kv.2) []).lookup k =
      lastBinding kvs k := fun k => lookup_foldl_mapSet kvs [] k
  rw [hrun]
  refine ⟨rfl, rfl, rfl, fun _ => rfl, fun _ => rfl, _, rfl, hnodup, ?_, ?_, ?_⟩
  · intro k v
    rw [mem_iff_lookup _ hnodup, hlookup]
  · intro k
    simp [GoMap.index, hlookup]
  · intro hk k v
    rw [mem_iff_lookup _ hnodup, hlookup, lastBinding_eq_some_iff kvs hk]

/-- A production-only configuration file with the settings `port` and `db`:
the document is read and decoded, and the production map holds those two pairs. -/
theorem readConfig_production_only_witness :
    (readConfig productionOnly "/proj" Globals.initial).err = none ∧
    (readConfig productionOnly "/proj" Globals.initial).globals.ConfigDevelopment = none ∧
    (readConfig productionOnly "/proj" Globals.initial).globals.ConfigTest = none ∧
    ∃ m, (readConfig productionOnly "/proj" Globals.initial).globals.ConfigProduction = some m ∧
      ∀ k v, (k, v) ∈ m ↔ (k, v) ∈ [("port", "3000"), ("db", "app")] := by
  obtain ⟨h1, h2, h3, _, _, m, hm, _, _, _, h5⟩ :=
    readConfig_production_only productionOnly "/proj"
      "\x7b\"production\":\x7b\"port\":\"3000\",\"db\":\"app\"\x7d\x7d" Globals.initial
      [("port", "3000"), ("db", "app")] rfl rfl
  exact ⟨h1, h2, h3, m, hm, h5 (by decide)⟩

/-! ## Failed loads -/

theorem foldl_saveError_isSome {A : Type} (g : A → String × Json → A)
    (err : String × Json → Option GoError) (ms : List (String × Json))
    (acc : A × Option GoError) :
    ((ms.foldl (fun acc kv => (g acc.1 kv, saveError acc.2 (err kv))) acc).2).isSome =
      (acc.2.isSome || ms.any (fun kv => (err kv).isSome)) := by
  induction ms generalizing acc with
  | nil => simp
  | cons e tl ih =>
    simp only [List.foldl_cons, List.any_cons]
    rw [ih]
    obtain ⟨a, saved⟩ := acc
    cases saved <;> simp [saveError]

theorem decodeString_error (v : Json) :
    (decodeString v).2.isSome = isNumberBoolArrayOrObject v := by
  cases v <;> rfl

theorem decodeSettings_error (ms : List (String × Json)) :
    (decodeSettings ms).2.isSome = ms.any (fun kv => isNumberBoolArrayOrObject kv.2) := by
  have h := foldl_saveError_isSome (fun a kv => mapSet a kv.1 (decodeString kv.2).1)
    (fun kv => (decodeString kv.2).2) ms ([], none)
  simp only [decodeString_error] at h
  simpa [decodeSettings] using h

theorem decodeSections_error (ms : List (String × Json)) :
    (decodeSections ms).2.isSome = ms.any (fun kv => (decodeSection kv.2).2.isSome) := by
  have h := foldl_saveError_isSome (fun a kv => mapSet a kv.1 (decodeSection kv.2).1)
    (fun kv => (decodeSection kv.2).2) ms ([], none)
  simpa [decodeSections] using h

/-- A document with a setting that is a number, a boolean, an array or an
object is rejected with a type error. -/
theorem decodeData_error_of_bad_setting (doc : Json)
    (h : hasSettingWith isNumberBoolArrayOrObject doc = true) :
    (decodeData doc).2.isSome = true := by
  cases doc with
  | object sections =>
    simp only [hasSettingWith, List.any_eq_true] at h
    obtain ⟨sec, hsec, hbad⟩ := h
    simp only [decodeData, decodeSections_error, List.any_eq_true]
    refine ⟨sec, hsec, ?_⟩
    cases hv : sec.2 with
    | object settings =>
      rw [hv] at hbad
      simpa [decodeSection, decodeSettings_error] using hbad
    | null => rw [hv] at hbad; simp at hbad
    | bool b => rfl
    | number n => rfl
    | string x => rfl
    | array xs => rfl
  | null => simp [hasSettingWith] at h
  | bool b => simp [hasSettingWith] at h
  | number n => simp [hasSettingWith] at h
  | string x => simp [hasSettingWith] at h
  | array xs => simp [hasSettingWith] at h

theorem allEmpty_initial : AllEmpty Globals.initial := fun _ => ⟨rfl, rfl, rfl⟩

theorem readConfig_of_read_error (w : World) (projectPath : String) (g : Globals)
    (err : GoError) (h : w.readFile (configPath projectPath) = .error err) :
    readConfig w projectPath g =
      ⟨some err, g, [.printf "Error opening config %s %v" [configPath projectPath, err.msg]]⟩ := by
  simp [readConfig, h]

theorem readConfig_of_unmarshal_error (w : World) (projectPath file : String) (g : Globals)
    (hread : w.readFile (configPath projectPath) = .ok file)
    (h : (unmarshal w file).2.isSome = true) :
    (readConfig w projectPath g).err.isSome = true ∧ (readConfig w projectPath g).globals = g := by
  rcases hu : unmarshal w file with ⟨data, saved⟩
  rw [hu] at h
  cases saved with
  | none => simp at h
  | some e => simp [readConfig, hread, hu]

/-- C4 (as amended): from the initial state, when the configuration file cannot
be read, or `json.Unmarshal` returns an error for its content, which includes
text that is not JSON and JSON with a setting value that is a number, a
boolean, an array or an object, `readConfig` returns the error and leaves the
three maps nil, so every key of every environment reads as `""`. -/
theorem readConfig_failure_leaves_empty (w : World) (projectPath : String) :
    (∀ err, w.readFile (configPath projectPath) = .error err →
      LoadFailedEmpty (readConfig w projectPath Globals.initial)) ∧
    (∀ file, w.readFile (configPath projectPath) = .ok file →
      (unmarshal w file).2.isSome = true →
      LoadFailedEmpty (readConfig w projectPath Globals.initial)) ∧
    (∀ file err, w.readFile (configPath projectPath) = .ok file →
      w.jsonValue file = .error err →
      LoadFailedEmpty (readConfig w projectPath Globals.initial)) ∧
    (∀ file doc, w.readFile (configPath projectPath) = .ok file →
      w.jsonValue file = .ok doc → hasSettingWith isNumberBoolArrayOrObject doc = true →
      LoadFailedEmpty (readConfig w projectPath Globals.initial)) := by
  have key : ∀ file, w.readFile (configPath projectPath) = .ok file →
      (unmarshal w file).2.isSome = true →
      LoadFailedEmpty (readConfig w projectPath Globals.initial) := by
    intro file hread hfail
    obtain ⟨h1, h2⟩ := readConfig_of_unmarshal_error w projectPath file Globals.initial hread hfail
    exact ⟨h1, h2, by rw [h2]; exact allEmpty_initial⟩
  refine ⟨?_, key, ?_, ?_⟩
  · intro err h
    rw [readConfig_of_read_error w projectPath Globals.initial err h]
    exact ⟨rfl, rfl, allEmpty_initial⟩
  · intro file err hread hjson
    exact key file hread (by simp [unmarshal, hjson])
  · intro file doc hread hjson hbad
    exact key file hread (by simpa [unmarshal, hjson] using decodeData_error_of_bad_setting doc hbad)

/-- The four kinds of failed load on concrete machines: no configuration file,
a number as a setting value (as a decoding error and as a document with such a
setting), and text that is not JSON. -/
theorem readConfig_failure_leaves_empty_witness :
    LoadFailedEmpty (readConfig missingConfig "/proj" Globals.initial) ∧
    LoadFailedEmpty (readConfig numberSetting "/proj" Globals.initial) ∧
    LoadFailedEmpty (readConfig notJson "/proj" Globals.initial) ∧
    LoadFailedEmpty (readConfig numberSetting "/proj" Globals.initial) :=
  ⟨(readConfig_failure_leaves_empty missingConfig "/proj").1 _ rfl,
   (readConfig_failure_leaves_empty numberSetting "/proj").2.1 _ rfl rfl,
   (readConfig_failure_leaves_empty notJson "/proj").2.2.1 _ _ rfl rfl,
   (readConfig_failure_leaves_empty numberSetting "/proj").2.2.2 _ _ rfl rfl rfl⟩

/-- C4 (as stated) fails: a document with the non-string setting value `null`
next to the string setting `b` is decoded without error, and afterwards
`ConfigProduction["b"]` is `"x"`, not the empty string. -/
theorem readConfig_null_setting_not_empty :
    hasSettingWith isNotString nullSettingDocument = true ∧
    succeeds (nullSetting.readFile (configPath "/proj")) = true ∧
    (readConfig nullSetting "/proj" Globals.initial).err = none ∧
    (readConfig nullSetting "/proj" Globals.initial).globals.ConfigProduction.index "" "b" = "x" ∧
    ¬ AllEmpty (readConfig nullSetting "/proj" Globals.initial).globals := by
  refine ⟨by decide, by decide, by decide, by decide, ?_⟩
  intro h
  exact absurd (h "b").2.1 (by decide)

/-! ## Dispatch -/

/-- C5: for each of the commands server/s, test/t, build/B, generate/g,
migrate/m, backup/b, restore/r and deploy/d, when the working directory
(resolved by `filepath.Abs`) is not a valid project, `main` leaves the package
variables as they were, so no configuration is loaded, and its only action is
the "No fragmenta project found" diagnostic: no kill, build, launch or call of
`runTests`, `runBuild`, `runGenerate`, `runMigrate`, `runBackup`, `runRestore`
or `runDeploy`. -/
theorem main_guarded_command_invalid_project (w : World) (prog cmd projectPath : String)
    (rest : List String) (g : Globals) (habs : w.abs = .ok projectPath)
    (hinvalid : isValidProject w projectPath = false) (hcmd : cmd ∈ guardedCommands) :
    main w (prog :: cmd :: rest) g = ⟨g, [noProjectDiagnostic]⟩ := by
  simp only [guardedCommands, List.mem_cons, List.mem_singleton, List.not_mem_nil,
    or_false] at hcmd
  rcases hcmd with h | h | h | h | h | h | h | h | h | h | h | h | h | h | h | h <;>
    subst h <;>
    simp [main, habs, hinvalid, dispatch, guarded, requireValidProject, noProjectDiagnostic]

/-- The command `migrate` in an empty directory. -/
theorem main_guarded_command_invalid_project_witness :
    main emptyDirectory ["fragmenta", "migrate"] Globals.initial =
      ⟨Globals.initial, [noProjectDiagnostic]⟩ :=
  main_guarded_command_invalid_project emptyDirectory "fragmenta" "migrate" "/proj" []
    Globals.initial rfl (by decide) (by decide)

/-- The empty command selects the default branch of the switch. -/
theorem dispatch_default (w : World) (projectPath command : String) (args : List String)
    (h : command ∉ recognisedCommands) :
    dispatch w projectPath command args =
      (requireValidProject w projectPath).2 ++
        if (requireValidProject w projectPath).1 = true then runServer w projectPath
        else showHelp args := by
  simp only [recognisedCommands, guardedCommands, List.cons_append, List.nil_append,
    List.mem_cons, List.mem_singleton, List.not_mem_nil, or_false, not_or] at h
  obtain ⟨h1, h2, h3, h4, h5, h6, h7, h8, h9, h10, h11, h12, h13, h14, h15, h16, h17, h18,
    h19, h20, h21, h22, h23, h24⟩ := h
  simp [dispatch, h1, h2, h3, h4, h5, h6, h7, h8, h9, h10, h11, h12, h13, h14, h15, h16, h17,
    h18, h19, h20, h21, h22, h23, h24]

theorem help_not_in_readConfig (w : World) (projectPath : String) (g : Globals) :
    Event.print helpString ∉ (readConfig w projectPath g).events := by
  unfold readConfig
  cases w.readFile (configPath projectPath) with
  | error e => simp
  | ok file =>
    rcases hu : unmarshal w file with ⟨data, saved⟩
    cases saved <;> simp [hu]

theorem version_ne_help :
    helpString ≠
      fragmentaDivider ++ ("Fragmenta version: " ++ fragmentaVersion) ++ fragmentaDivider := by
  decide

theorem help_not_in_runServer (w : World) (projectPath : String) :
    Event.print helpString ∉ runServer w projectPath := by
  unfold runServer
  cases w.buildServer (localServerPath projectPath) [] with
  | some e => simp [showVersion, killServer, version_ne_help]
  | none =>
    cases w.start (localServerPath projectPath) <;>
      simp [showVersion, killServer, version_ne_help]

/-- The default branch of the switch, reached with at most the program name on
the command line. -/
theorem main_default_branch (w : World) (args : List String) (projectPath : String) (g : Globals)
    (hargs : args.length ≤ 1) (habs : w.abs = .ok projectPath) :
    (isValidProject w projectPath = true →
      (main w args g).events = (readConfig w projectPath g).events ++ runServer w projectPath ∧
      Event.print helpString ∉ (main w args g).events) ∧
    (isValidProject w projectPath = false →
      main w args g = ⟨g, [noProjectDiagnostic, .print helpString]⟩ ∧
      (∀ e ∈ (main w args g).events, e.isAction = false) ∧
      ∀ e ∈ runServer w projectPath, e ∉ (main w args g).events) := by
  have hlen : ¬ (args.length > 1) := by omega
  have hdisp := dispatch_default w projectPath "" args (by decide)
  constructor
  · intro hvalid
    have hev : (main w args g).events =
        (readConfig w projectPath g).events ++ runServer w projectPath := by
      simp [main, habs, hlen, hvalid, hdisp, requireValidProject]
    refine ⟨hev, ?_⟩
    rw [hev, List.mem_append]
    rintro (h | h)
    · exact help_not_in_readConfig w projectPath g h
    · exact help_not_in_runServer w projectPath h
  · intro hinvalid
    have hrun : main w args g = ⟨g, [noProjectDiagnostic, .print helpString]⟩ := by
      simp [main, habs, hlen, hinvalid, hdisp, requireValidProject, showHelp,
        noProjectDiagnostic]
    rw [hrun]
    refine ⟨rfl, ?_, ?_⟩
    · intro e he
      simp only [List.mem_cons, List.mem_singleton, List.not_mem_nil, or_false] at he
      rcases he with h | h <;> subst h <;> rfl
    · intro e he hmem
      simp only [List.mem_cons, List.mem_singleton, List.not_mem_nil, or_false] at hmem
      rcases hmem with h | h
      · subst h
        revert he
        unfold runServer
        cases w.buildServer (localServerPath projectPath) [] with
        | some e => simp [showVersion, killServer, noProjectDiagnostic]
        | none =>
          cases w.start (localServerPath projectPath) <;>
            simp [showVersion, killServer, noProjectDiagnostic]
      · subst h
        exact help_not_in_runServer w projectPath he

/-- C6: with no command token, when the working directory (resolved by
`filepath.Abs`) is a valid project
`main` loads the configuration and runs the server on the project path, and
never shows the help; when it is not, `main` emits the diagnostic and shows
the help, and takes no step of running the server. -/
theorem main_no_command (w : World) (args : List String) (projectPath : String) (g : Globals)
    (hargs : args.length ≤ 1) (habs : w.abs = .ok projectPath) :
    (isValidProject w projectPath = true →
      (main w args g).events = (readConfig w projectPath g).events ++ runServer w projectPath ∧
      Event.print helpString ∉ (main w args g).events) ∧
    (isValidProject w projectPath = false →
      main w args g = ⟨g, [noProjectDiagnostic, .print helpString]⟩ ∧
      (∀ e ∈ (main w args g).events, e.isAction = false) ∧
      ∀ e ∈ runServer w projectPath, e ∉ (main w args g).events) :=
  main_default_branch w args projectPath g hargs habs

/-- No command token in a project with a production-only configuration file,
and in an empty directory. -/
theorem main_no_command_witness :
    ((main productionOnly ["fragmenta"] Globals.initial).events =
        (readConfig productionOnly "/proj" Globals.initial).events ++
          runServer productionOnly "/proj" ∧
      Event.print helpString ∉ (main productionOnly ["fragmenta"] Globals.initial).events) ∧
    main emptyDirectory ["fragmenta"] Globals.initial =
      ⟨Globals.initial, [noProjectDiagnostic, .print helpString]⟩ :=
  ⟨(main_no_command productionOnly ["fragmenta"] "/proj" Globals.initial (by decide) rfl).1
      (by decide),
   ((main_no_command emptyDirectory ["fragmenta"] "/proj" Globals.initial (by decide) rfl).2
      (by decide)).1⟩

/-- C10: a command token that no `case` of the switch names is handled exactly
as no command token: `main` yields the same state and the same actions.  On a
valid project these are loading the configuration and then running the
server: the version banner, the kill of `fragmenta-server`, the build of the
local server binary and, when the build returns no error, the launch (command,
pipes, start, the log of a start error if any, both forwarding tasks and the
wait); when the build returns an error the run ends with its report.  On an
invalid project they are the diagnostic followed by the help. -/
theorem main_unrecognised_command (w : World) (prog cmd : String) (rest : List String)
    (g : Globals) (hcmd : cmd ∉ recognisedCommands) :
    main w (prog :: cmd :: rest) g = main w [prog] g ∧
    ∀ projectPath, w.abs = .ok projectPath →
      (isValidProject w projectPath = true →
        (w.buildServer (localServerPath projectPath) [] = none →
          (main w (prog :: cmd :: rest) g).events =
            (readConfig w projectPath g).events ++
              [.print (fragmentaDivider ++ ("Fragmenta version: " ++ fragmentaVersion) ++
                  fragmentaDivider),
                .runCommand "killall" ["-9", "fragmenta-server"],
                .println ["Building server..."],
                .buildServer (projectPath ++ "/bin/fragmenta-server-local") [],
                .println ["Launching server..."],
                .command (projectPath ++ "/bin/fragmenta-server-local"),
                .stdoutPipe, .stderrPipe,
                .start (projectPath ++ "/bin/fragmenta-server-local")] ++
              (match w.start (localServerPath projectPath) with
                | some err => [.println [err.msg]]
                | none => []) ++
              [.goCopyStdout, .goCopyStderr, .wait]) ∧
        (∀ err, w.buildServer (localServerPath projectPath) [] = some err →
          (main w (prog :: cmd :: rest) g).events =
            (readConfig w projectPath g).events ++
              [.print (fragmentaDivider ++ ("Fragmenta version: " ++ fragmentaVersion) ++
                  fragmentaDivider),
                .runCommand "killall" ["-9", "fragmenta-server"],
                .println ["Building server..."],
                .buildServer (projectPath ++ "/bin/fragmenta-server-local") [],
                .printf "Error building server: %s" [err.msg]])) ∧
      (isValidProject w projectPath = false →
        main w (prog :: cmd :: rest) g = ⟨g, [noProjectDiagnostic, .print helpString]⟩) := by
  have hsame : main w (prog :: cmd :: rest) g = main w [prog] g := by
    cases habs : w.abs with
    | error e => simp [main, habs]
    | ok projectPath =>
      simp [main, habs, dispatch_default w projectPath cmd _ hcmd,
        dispatch_default w projectPath "" _ (by decide), showHelp]
  refine ⟨hsame, ?_⟩
  intro projectPath habs
  rw [hsame]
  have h := main_default_branch w [prog] projectPath g (by simp) habs
  have hpath : projectPath ++ "/bin/fragmenta-server-local" = localServerPath projectPath := by
    simp [localServerPath, serverName, String.append_assoc]
  refine ⟨fun hv => ⟨?_, ?_⟩, fun hi => (h.2 hi).1⟩
  · intro hbuild
    rw [(h.1 hv).1, hpath]
    simp [runServer, hbuild, showVersion, killServer, serverName]
  · intro err hbuild
    rw [(h.1 hv).1, hpath]
    simp [runServer, hbuild, showVersion, killServer, serverName]

/-- The unknown command `frobnicate` in a project whose build and start
succeed, in a project whose build fails, and in an empty directory. -/
theorem main_unrecognised_command_witness :
    main productionOnly ["fragmenta", "frobnicate", "now"] Globals.initial =
      main productionOnly ["fragmenta"] Globals.initial ∧
    (main productionOnly ["fragmenta", "frobnicate", "now"] Globals.initial).events =
      [.print "\n------\nFragmenta version: 1.1\n------\n",
        .runCommand "killall" ["-9", "fragmenta-server"],
        .println ["Building server..."],
        .buildServer "/proj/bin/fragmenta-server-local" [],
        .println ["Launching server..."],
        .command "/proj/bin/fragmenta-server-local",
        .stdoutPipe, .stderrPipe,
        .start "/proj/bin/fragmenta-server-local",
        .goCopyStdout, .goCopyStderr, .wait] ∧
    (main buildFails ["fragmenta", "frobnicate", "now"] Globals.initial).events =
      (readConfig buildFails "/proj" Globals.initial).events ++
        [.print "\n------\nFragmenta version: 1.1\n------\n",
          .runCommand "killall" ["-9", "fragmenta-server"],
          .println ["Building server..."],
          .buildServer "/proj/bin/fragmenta-server-local" [],
          .printf "Error building server: %s" ["exit status 2"]] ∧
    main emptyDirectory ["fragmenta", "frobnicate", "now"] Globals.initial =
      ⟨Globals.initial, [noProjectDiagnostic, .print helpString]⟩ :=
  ⟨(main_unrecognised_command productionOnly "fragmenta" "frobnicate" ["now"] Globals.initial
      (by decide)).1,
   (((main_unrecognised_command productionOnly "fragmenta" "frobnicate" ["now"] Globals.initial
      (by decide)).2 "/proj" rfl).1 (by decide)).1 rfl,
   (((main_unrecognised_command buildFails "fragmenta" "frobnicate" ["now"] Globals.initial
      (by decide)).2 "/proj" rfl).1 (by decide)).2 ⟨"exit status 2"⟩ rfl,
   ((main_unrecognised_command emptyDirectory "fragmenta" "frobnicate" ["now"] Globals.initial
      (by decide)).2 "/proj" rfl).2 (by decide)⟩

/-! ## Running the server -/

/-- The actions of `runServer` up to and including the build invocation. -/
theorem runServer_begins (w : World) (projectPath : String) :
    ∃ post, runServer w projectPath =
        showVersion ++ killEvent :: .println ["Building server..."] ::
          buildEvent projectPath :: post ∧
      killEvent ∉ post ∧ buildEvent projectPath ∉ post := by
  unfold runServer
  cases w.buildServer (localServerPath projectPath) [] with
  | some e =>
    refine ⟨[.printf "Error building server: %s" [e.msg]], ?_, ?_, ?_⟩ <;>
      simp [killServer, killEvent, buildEvent]
  | none =>
    cases w.start (localServerPath projectPath) with
    | some e =>
      refine ⟨[.println ["Launching server..."], .command (localServerPath projectPath),
        .stdoutPipe, .stderrPipe, .start (localServerPath projectPath), .println [e.msg],
        .goCopyStdout, .goCopyStderr, .wait], ?_, ?_, ?_⟩ <;>
        simp [killServer, killEvent, buildEvent]
    | none =>
      refine ⟨[.println ["Launching server..."], .command (localServerPath projectPath),
        .stdoutPipe, .stderrPipe, .start (localServerPath projectPath),
        .goCopyStdout, .goCopyStderr, .wait], ?_, ?_, ?_⟩ <;>
        simp [killServer, killEvent, buildEvent]

/-- C7: when the build invocation returns an error, `runServer` logs that
error after the build and stops: its actions are the version banner, the
kill, the build and the error report, none of them a launch step (no command,
pipe, start, stream forwarding or wait), and "Launching server..." is never
logged. -/
theorem runServer_build_error (w : World) (projectPath : String) (err : GoError)
    (hbuild : w.buildServer (localServerPath projectPath) [] = some err) :
    runServer w projectPath =
      showVersion ++ [killEvent, .println ["Building server..."], buildEvent projectPath,
        .printf "Error building server: %s" [err.msg]] ∧
    (∀ e ∈ runServer w projectPath, e.isLaunchStep = false) ∧
    Event.println ["Launching server..."] ∉ runServer w projectPath := by
  have hrun : runServer w projectPath =
      showVersion ++ [killEvent, .println ["Building server..."], buildEvent projectPath,
        .printf "Error building server: %s" [err.msg]] := by
    simp [runServer, hbuild, killServer, killEvent, buildEvent]
  rw [hrun]
  refine ⟨rfl, ?_, ?_⟩
  · intro e he
    simp only [showVersion, killEvent, buildEvent, List.cons_append, List.nil_append,
      List.mem_cons, List.mem_singleton, List.not_mem_nil, or_false] at he
    rcases he with h | h | h | h | h <;> subst h <;> rfl
  · simp [showVersion, killEvent, buildEvent]

/-- A project whose build exits with status 2. -/
theorem runServer_build_error_witness :
    runServer buildFails "/proj" =
      showVersion ++ [killEvent, .println ["Building server..."], buildEvent "/proj",
        .printf "Error building server: %s" ["exit status 2"]] ∧
    (∀ e ∈ runServer buildFails "/proj", e.isLaunchStep = false) ∧
    Event.println ["Launching server..."] ∉ runServer buildFails "/proj" :=
  runServer_build_error buildFails "/proj" ⟨"exit status 2"⟩ rfl

/-- C8 (as stated) fails: with a failing build the termination signal is
still issued, and it is issued before the build is invoked. -/
theorem runServer_kills_before_failed_build :
    (buildFails.buildServer (localServerPath "/proj") []).isSome = true ∧
    killEvent ∈ runServer buildFails "/proj" ∧
    (runServer buildFails "/proj").indexOf killEvent <
      (runServer buildFails "/proj").indexOf (buildEvent "/proj") := by
  decide

/-- C8 (as amended): in every execution of `runServer` the termination signal
is issued exactly once, before the build is invoked and so before any launch
step, whatever the build returns: nothing before it is a build or a launch
step, the build follows it, and it does not occur again. -/
theorem runServer_kill_precedes_build (w : World) (projectPath : String) :
    ∃ pre post, runServer w projectPath = pre ++ killEvent :: post ∧
      (∀ e ∈ pre, e ≠ killEvent ∧ e ≠ buildEvent projectPath ∧ e.isLaunchStep = false) ∧
      buildEvent projectPath ∈ post ∧ killEvent ∉ post := by
  obtain ⟨post, hrun, hkill, _⟩ := runServer_begins w projectPath
  refine ⟨showVersion, _, hrun, ?_, by simp, ?_⟩
  · intro e he
    simp only [showVersion, List.mem_singleton] at he
    subst he
    exact ⟨by simp [killEvent], by simp [buildEvent], rfl⟩
  · simpa [killEvent, buildEvent] using hkill

/-- C9: with a successful build and a failing `cmd.Start`, `runServer` logs
the error and goes on: both forwarding tasks are started and `cmd.Wait` is
called. -/
theorem runServer_start_error_continues :
    startFails.buildServer (localServerPath "/proj") [] = none ∧
    (startFails.start (localServerPath "/proj")).isSome = true ∧
    runServer startFails "/proj" =
      showVersion ++ [killEvent, .println ["Building server..."], buildEvent "/proj",
        .println ["Launching server..."], .command "/proj/bin/fragmenta-server-local",
        .stdoutPipe, .stderrPipe, .start "/proj/bin/fragmenta-server-local",
        .println ["fork/exec /proj/bin/fragmenta-server-local: permission denied"],
        .goCopyStdout, .goCopyStderr, .wait] := by
  decide

end Fragmenta
